import Mathlib

/-!
# Verification of `zim_to_corpus` (HTML section extraction and batch conversion)

Shallow embedding of the two source files of the repository:

* `zim_to_corpus/html.py` — the regex predicates `headerp` and `listp`,
  `get_title`, and the generator `sections_backwards`;
* `scripts/extract_zim_htmls.py` — the conversion worker `convert_to_json`
  and the batch driver `main`.

HTML trees (BeautifulSoup `Tag` / `NavigableString` nodes) are modelled by the
inductive type `Node`; the conversion worker is modelled as a function of the
record stream produced by the external dump reader and of the parse function,
both of which live in the repository module `zim_to_corpus.wiki` that is not
part of the two source files (they are modelled from the spec, see below).
-/

/-- A node of a parsed HTML tree: either an element (`bs4.element.Tag`, with a
tag name and a list of children, in document order) or a text node
(`bs4.element.NavigableString`). -/
inductive Node where
  | tag (name : String) (children : List Node)
  | text (s : String)

/-- `bs4`: the `.name` attribute of a node — the tag name for a `Tag`,
`None` for a `NavigableString`. -/
def Node.name : Node → Option String
  | .tag n _ => some n
  | .text _ => none

mutual
/-- `bs4`: `Tag.get_text()` — concatenation of all strings of the subtree,
in document order. -/
def get_text : Node → String
  | .text s => s
  | .tag _ cs => get_text_list cs

/-- `get_text` over a child list, left to right. -/
def get_text_list : List Node → String
  | [] => ""
  | c :: cs => get_text c ++ get_text_list cs
end

/-- Truthiness of `headerp.match(name)` for `headerp = re.compile('[hH][0-9]+')`:
`re.match` anchors at the start of the string only, so the pattern matches iff
the name starts with `h` or `H` followed by at least one ASCII digit. -/
def headerp_match (name : String) : Bool :=
  match name.data with
  | c1 :: c2 :: _ => (c1 == 'h' || c1 == 'H') && c2.isDigit
  | _ => false

/-- Truthiness of `listp.match(name)` for `listp = re.compile('[ou]l')`:
`re.match` anchors at the start only, so the pattern matches iff the name
starts with `ol` or `ul`. -/
def listp_match (name : String) : Bool :=
  match name.data with
  | c1 :: c2 :: _ => (c1 == 'o' || c1 == 'u') && c2 == 'l'
  | _ => false

/-- The spec's wording of header recognition: the tag name is exactly `h`
followed by one or more digits (`h1`, `h2`, …, `h10`, …). -/
def header_spec (name : String) : Bool :=
  match name.data with
  | c :: rest => c == 'h' && !rest.isEmpty && rest.all Char.isDigit
  | [] => false

/-- The spec's wording of list recognition: the tag name is exactly `ul` or
exactly `ol`. -/
def list_spec (name : String) : Bool :=
  name == "ul" || name == "ol"

/-- Errors that `get_title` can raise: `ValueError('No header in section')`
from the `for`/`else` clause, or the `TypeError` raised by
`headerp.match(child.name)` when `child` is a `NavigableString`
(whose `.name` is `None`). -/
inductive TitleError where
  | valueError
  | typeError
deriving DecidableEq, Repr

/-- `re.match(headerp, x)` where `x : Option String` is a node's `.name`:
`re.match` raises `TypeError` on `None`, otherwise reports whether the
pattern matches. -/
def headerp_match_name : Option String → Except TitleError Bool
  | none => .error .typeError
  | some n => .ok (headerp_match n)

/-- The `for child in section.children` loop of `get_title`: return the text of
the first child whose name matches `headerp`; the loop's `else` clause raises
`ValueError` when no child matched. -/
def get_title_loop : List Node → Except TitleError String
  | [] => .error .valueError
  | c :: cs =>
    match headerp_match_name c.name with
    | .error e => .error e
    | .ok true => .ok (get_text c)
    | .ok false => get_title_loop cs

/-- `get_title(section)` from `zim_to_corpus/html.py`. -/
def get_title : Node → Except TitleError String
  | .tag _ cs => get_title_loop cs
  | .text _ => get_title_loop []

/-- `isinstance(child, Tag) and child.name == 'section'` — the condition under
which `sections_backwards` descends into a child. -/
def isSection : Node → Bool
  | .tag n _ => n == "section"
  | .text _ => false

mutual
/-- `sections_backwards(tree)` from `zim_to_corpus/html.py`, for `tree` a
`Tag`: iterate the children in reverse (`tree.contents[::-1]`), recursing into
each child that is a `<section>` element, and finally (the loop's `else`
clause, which always runs since the loop has no `break`) yield `tree` itself
if it is a `<section>` element. The list collects the yielded elements in
order. -/
def sections_backwards : Node → List Node
  | .text _ => []
  | .tag n cs =>
    sections_backwards_list cs ++ (if n == "section" then [Node.tag n cs] else [])

/-- The reverse iteration `for child in tree.contents[::-1]` of
`sections_backwards`: the last child is handled first. -/
def sections_backwards_list : List Node → List Node
  | [] => []
  | c :: cs =>
    sections_backwards_list cs ++ (if isSection c then sections_backwards c else [])
end

/-- `sections_backwards(soup)` for a `BeautifulSoup` document node: first
`yield from sections_backwards(soup.body)`, then the same reverse loop over
the document's own top-level contents; the final `else` clause yields nothing
because the document's name is `'[document]'`, not `'section'`. -/
def sections_backwards_doc (contents : List Node) (body : Node) : List Node :=
  sections_backwards body ++ sections_backwards_list contents

mutual
/-- Forward (document-order) enumeration of the `<section>` elements that
`sections_backwards` can reach: a pre-order walk that descends only into
`<section>`-named children. -/
def chainSections : Node → List Node
  | .text _ => []
  | .tag n cs =>
    (if n == "section" then [Node.tag n cs] else []) ++ chainSections_list cs

/-- `chainSections` over a child list, left to right. -/
def chainSections_list : List Node → List Node
  | [] => []
  | c :: cs =>
    (if isSection c then chainSections c else []) ++ chainSections_list cs
end

mutual
/-- Document-order enumeration of every `<section>` element of a tree,
descending into all children (what "each `<section>` element of the tree"
denotes). -/
def allSections : Node → List Node
  | .text _ => []
  | .tag n cs =>
    (if n == "section" then [Node.tag n cs] else []) ++ allSections_list cs

/-- `allSections` over a child list, left to right. -/
def allSections_list : List Node → List Node
  | [] => []
  | c :: cs => allSections c ++ allSections_list cs
end

/-- Whether a node is an element (`isinstance(child, Tag)`). -/
def Node.isTag : Node → Bool
  | .tag _ _ => true
  | .text _ => false

/-- Whether a child would be accepted by the header test of `get_title`
without raising: it is an element and its name matches `headerp`. -/
def is_header_child : Node → Bool
  | .tag n _ => headerp_match n
  | .text _ => false

/-- Example tree for the traversal claims: a `<body>` whose only `<section>`
element sits inside a `<div>`, i.e. is not reachable through a chain of
`<section>`-named ancestors. -/
def exDivNested : Node :=
  Node.tag "body" [Node.tag "div" [Node.tag "section" [Node.tag "h2" [Node.text "T"]]]]

/-- The `<section>` element buried in `exDivNested`. -/
def exDivSection : Node :=
  Node.tag "section" [Node.tag "h2" [Node.text "T"]]

/-- A parse function that succeeds on every record, used to instantiate the
worker theorems at concrete inputs. -/
def idParse : String → Except String String := fun s => Except.ok s

/-! ## The conversion worker (`scripts/extract_zim_htmls.py`) -/

/-- Modelled from the spec: the Dump Reader `enumerate_static_dump` lives in
`zim_to_corpus.wiki`, which is not among the source files; per the spec it
yields a "lazy finite sequence of HTML-text, raising a distinguishable
'unexpected end of data' condition (`EOFError`) if the archive is truncated
mid-sequence". A stream is therefore modelled by the list of records it
yields successfully together with a `Terminal` saying how the sequence ends
after them. -/
inductive Terminal where
  | exhausted
  | eofError (msg : String)
  | otherError (e : String)
deriving DecidableEq, Repr

/-- Python-level outcomes that `convert_to_json` can raise: the
`UnboundLocalError` produced by reading `doc_no` before the loop ever bound
it, or a processing exception re-raised by the bare `except:` clause. -/
inductive PyError where
  | unboundLocal (var : String)
  | procError (e : String)
deriving DecidableEq, Repr

/-- How one invocation of `convert_to_json` ends: a `return doc_no` with a
count, or a raised exception. -/
inductive ConvResult where
  | ret (count : Nat)
  | raise (e : PyError)
deriving DecidableEq, Repr

/-- The logging calls of `convert_to_json` that carry error context:
`logging.error(ee)` in the `EOFError` handler, and
`logging.exception(f'Error in ..., document ...')` in the bare `except:`
handler (recording the input file name and the current record number).
The two `logging.debug` calls are not modelled. -/
inductive LogEntry where
  | logError (msg : String)
  | logException (file : String) (docNo : Nat)
deriving DecidableEq, Repr

/-- Observable effects of one `convert_to_json` invocation: its result, whether
the destination file was created, the lines written to it (in order), and the
error-context log entries emitted. -/
structure ConvRun where
  result : ConvResult
  fileCreated : Bool
  lines : List String
  logs : List LogEntry
deriving DecidableEq, Repr

/-- `json.dumps` applied to one string (Python stdlib; simplified to quoting
with escaping of the backslash, the double quote, and the newline — the
claims only use that each written line is the serialization of its record). -/
def json_dumps (s : String) : String :=
  "\"" ++ String.join (s.data.map fun c =>
    if c == '"' then "\\\""
    else if c == '\\' then "\\\\"
    else if c == '\n' then "\\n"
    else String.singleton c) ++ "\""

/-- The `for doc_no, html in enumerate(..., 1)` loop of `convert_to_json`,
entered with `n` records already processed: each record first binds `doc_no`
to its 1-based index, then is parsed and, on success, written as one line.
Returns the lines written by the remaining iterations and either
`Sum.inl n'` (loop finished all records, `doc_no` last bound to `n'`; `n' = 0`
means it was never bound) or `Sum.inr (e, k)` (processing record `k` raised
`e`). `ZimHtmlParser.parse` plus `prettify` (module `zim_to_corpus.wiki`, not
among the source files) are abstracted as the `parse` argument, whose failures
model the non-`EOFError` exceptions of record processing. -/
def conv_loop (parse : String → Except String String) :
    List String → Nat → List String × (Nat ⊕ String × Nat)
  | [], n => ([], Sum.inl n)
  | h :: t, n =>
    match parse h with
    | .ok s =>
      let r := conv_loop parse t (n + 1)
      (json_dumps s :: r.1, r.2)
    | .error e => ([], Sum.inr (e, n + 1))

/-- `convert_to_json(input_file, output_file)` from
`scripts/extract_zim_htmls.py`, as a function of the record stream
(`docs`, `terminal`) produced by the Dump Reader for `input_file` and of the
abstracted parse function.

Faithful points: `gzip.open(output_file, 'wt')` creates (truncates) the
destination before the first record is read, so `fileCreated` holds in every
branch; the `except EOFError` handler logs the error and executes
`return doc_no`, which raises `UnboundLocalError` when no record was ever
read; the bare `except:` handler evaluates
`f'Error in ..., document ...'` first, so it too raises `UnboundLocalError`
(and logs nothing, re-raising nothing) when `doc_no` is unbound, and otherwise
logs the file and record number and re-raises; the trailing `logging.debug`
f-string reads `doc_no`, so plain exhaustion with zero records also raises
`UnboundLocalError`. -/
def convert_to_json (parse : String → Except String String) (input_file : String)
    (docs : List String) (terminal : Terminal) : ConvRun :=
  match conv_loop parse docs 0 with
  | (lines, Sum.inr (e, k)) =>
    ⟨.raise (.procError e), true, lines, [.logException input_file k]⟩
  | (lines, Sum.inl n) =>
    match terminal with
    | .exhausted =>
      if n = 0 then ⟨.raise (.unboundLocal "doc_no"), true, lines, []⟩
      else ⟨.ret n, true, lines, []⟩
    | .eofError msg =>
      if n = 0 then ⟨.raise (.unboundLocal "doc_no"), true, lines, [.logError msg]⟩
      else ⟨.ret n, true, lines, [.logError msg]⟩
    | .otherError e =>
      if n = 0 then ⟨.raise (.unboundLocal "doc_no"), true, lines, []⟩
      else ⟨.raise (.procError e), true, lines, [.logException input_file n]⟩

/-! ## The batch driver (`main` of `scripts/extract_zim_htmls.py`) -/

/-- `os.path.join(dir, f)` for a base name `f` as returned by `os.listdir`
(never absolute, so the join is plain concatenation with a separator). -/
def op_join (dir f : String) : String := dir ++ "/" ++ f

/-- The list comprehension of `main` building `in_out_files`: one
`(input path, output path)` pair per entry of the one-level directory
listing, the output path reusing the same base name under the output
directory. -/
def in_out_files (input_dir output_dir : String) (listing : List String) :
    List (String × String) :=
  listing.map fun f => (op_join input_dir f, op_join output_dir f)

/-- `pool.starmap(convert_to_json, in_out_files)`: one worker invocation per
pair, results collected in task order; if any invocation raised, `starmap`
re-raises and no list of counts is produced. The worker is a parameter so
the driver can be stated for any per-file stream environment. -/
def pool_starmap (worker : String → String → ConvRun) :
    List (String × String) → Except PyError (List Nat)
  | [] => .ok []
  | (i, o) :: ts =>
    match (worker i o).result with
    | .ret n =>
      match pool_starmap worker ts with
      | .ok ns => .ok (n :: ns)
      | .error e => .error e
    | .raise e => .error e

/-- `total_docs = sum(pool.starmap(convert_to_json, in_out_files))` of `main`:
the reported batch total, or the exception surfaced by the pool. -/
def main_total (worker : String → String → ConvRun) (input_dir output_dir : String)
    (listing : List String) : Except PyError Nat :=
  match pool_starmap worker (in_out_files input_dir output_dir listing) with
  | .ok counts => .ok counts.sum
  | .error e => .error e

/-! ## Helper lemmas -/

mutual
/-- Key lemma: the backwards generator enumerates exactly the reversal of the
forward document-order enumeration of the reachable sections. -/
theorem sections_backwards_reverse : (t : Node) →
    sections_backwards t = (chainSections t).reverse
  | .text s => by simp [sections_backwards, chainSections]
  | .tag n cs => by
    rw [show sections_backwards (.tag n cs)
          = sections_backwards_list cs
            ++ (if n == "section" then [Node.tag n cs] else []) from rfl,
        show chainSections (.tag n cs)
          = (if n == "section" then [Node.tag n cs] else []) ++ chainSections_list cs
          from rfl,
        List.reverse_append, sections_backwards_list_reverse cs]
    by_cases h : n == "section" <;> simp [h]

/-- List version of `sections_backwards_reverse`. -/
theorem sections_backwards_list_reverse : (cs : List Node) →
    sections_backwards_list cs = (chainSections_list cs).reverse
  | [] => rfl
  | c :: cs => by
    rw [show sections_backwards_list (c :: cs)
          = sections_backwards_list cs
            ++ (if isSection c then sections_backwards c else []) from rfl,
        show chainSections_list (c :: cs)
          = (if isSection c then chainSections c else []) ++ chainSections_list cs
          from rfl,
        List.reverse_append, sections_backwards_list_reverse cs]
    by_cases h : isSection c <;> simp [h, sections_backwards_reverse c]
end

/-- Membership in the backwards enumeration implies membership in the forward
enumeration of the section-chain-reachable sections. -/
theorem mem_sections_backwards (t s : Node) (h : s ∈ sections_backwards t) :
    s ∈ chainSections t := by
  rw [sections_backwards_reverse] at h
  exact List.mem_reverse.mp h

/-- The for-loop of `get_title` over element-only children with no header
child ends in the `else` clause (`ValueError`). -/
theorem get_title_loop_no_header (cs : List Node)
    (htag : ∀ c ∈ cs, c.isTag = true) (hnh : ∀ c ∈ cs, is_header_child c = false) :
    get_title_loop cs = Except.error TitleError.valueError := by
  induction cs with
  | nil => rfl
  | cons c cs ih =>
    rcases c with ⟨n, k⟩ | s
    · have hm : headerp_match n = false := by
        simpa [is_header_child] using hnh _ (List.mem_cons_self _ _)
      simp only [get_title_loop, headerp_match_name, Node.name, hm]
      exact ih (fun c h => htag c (List.mem_cons_of_mem _ h))
        (fun c h => hnh c (List.mem_cons_of_mem _ h))
    · have := htag _ (List.mem_cons_self _ _)
      simp [Node.isTag] at this

/-- The for-loop of `get_title` stops at the first header child and returns
its text, provided the children before it are non-header elements. -/
theorem get_title_loop_first_header (pre : List Node) (hd : Node) (rest : List Node)
    (htag : ∀ c ∈ pre, c.isTag = true) (hnh : ∀ c ∈ pre, is_header_child c = false)
    (hh : is_header_child hd = true) :
    get_title_loop (pre ++ hd :: rest) = Except.ok (get_text hd) := by
  induction pre with
  | nil =>
    rcases hd with ⟨n, k⟩ | s
    · have hm : headerp_match n = true := by simpa [is_header_child] using hh
      simp [get_title_loop, headerp_match_name, Node.name, hm]
    · simp [is_header_child] at hh
  | cons c pre ih =>
    rcases c with ⟨n, k⟩ | s
    · have hm : headerp_match n = false := by
        simpa [is_header_child] using hnh _ (List.mem_cons_self _ _)
      simp only [List.cons_append, get_title_loop, headerp_match_name, Node.name, hm]
      exact ih (fun c h => htag c (List.mem_cons_of_mem _ h))
        (fun c h => hnh c (List.mem_cons_of_mem _ h))
    · have := htag _ (List.mem_cons_self _ _)
      simp [Node.isTag] at this

/-! ## Claim theorems -/

/-- C1, counterexample: in `exDivNested` the only `<section>` element of the
tree sits inside a `<div>`; `sections_backwards` yields nothing, so it does
not yield each `<section>` element of the tree. -/
theorem c1_counterexample :
    sections_backwards exDivNested = [] ∧ allSections exDivNested = [exDivSection] := by
  constructor <;>
    simp [exDivNested, exDivSection, sections_backwards, sections_backwards_list,
      allSections, allSections_list, isSection]

/-- C1 (amended): `sections_backwards` yields exactly the `<section>` elements
reachable from the root through `<section>`-tagged ancestors (each occurrence
exactly once), in reverse document order — the reversal of the forward
pre-order enumeration `chainSections`; likewise at document level, where the
walk starts at the body. A tree with no such section yields the empty
sequence. -/
theorem c1_backwards_is_reverse_document_order :
    (∀ t : Node, sections_backwards t = (chainSections t).reverse) ∧
    (∀ contents : List Node, ∀ body : Node,
      sections_backwards_doc contents body
        = (chainSections_list contents ++ chainSections body).reverse) := by
  refine ⟨sections_backwards_reverse, fun contents body => ?_⟩
  rw [sections_backwards_doc, sections_backwards_reverse body,
    sections_backwards_list_reverse contents, List.reverse_append]

/-- C10: `sections_backwards` only ever yields sections reachable through a
chain of `<section>`-named children (it descends into no other child), so the
section nested in the `<div>` of `exDivNested` is absent from the output. -/
theorem c10_descends_only_into_sections :
    (∀ t s : Node, s ∈ sections_backwards t → s ∈ chainSections t) ∧
    sections_backwards exDivNested = [] := by
  refine ⟨mem_sections_backwards, ?_⟩
  simp [exDivNested, sections_backwards, sections_backwards_list, isSection]

/-- Witness for C10 at a concrete input. -/
theorem c10_witness :
    Node.tag "section" [] ∈ chainSections (Node.tag "section" []) :=
  c10_descends_only_into_sections.1 _ _
    (by simp [sections_backwards, sections_backwards_list])

/-- C5, counterexample: `re.match` anchors only at the start, so the tag name
`h1x` — which is not "h followed by one or more digits" — is still classified
as a header by `headerp`. -/
theorem c5_counterexample :
    headerp_match "h1x" = true ∧ header_spec "h1x" = false := by
  constructor <;> rfl

/-- C5 (amended): `headerp.match` classifies a tag name as a header iff the
name starts with `h` or `H` followed by at least one digit; characters after
the first digit are unconstrained (a prefix match, not a full match). -/
theorem c5_header_recognition (name : String) :
    headerp_match name = true ↔
      ∃ c d rest, name.data = c :: d :: rest ∧ (c = 'h' ∨ c = 'H') ∧ d.isDigit = true := by
  cases hd : name.data with
  | nil => rw [headerp_match, hd]; simp [hd]
  | cons c tl =>
    cases tl with
    | nil => rw [headerp_match, hd]; simp [hd]
    | cons d rest =>
      rw [headerp_match, hd]; simp [hd]
      constructor
      · rintro ⟨hc, hdd⟩; exact ⟨c, d, ⟨rfl, rfl⟩, hc, hdd⟩
      · rintro ⟨c', d', ⟨rfl, rfl⟩, hc, hdd⟩; exact ⟨hc, hdd⟩

/-- C8, counterexample: `re.match` anchors only at the start, so the tag name
`ulx` — neither exactly `ul` nor exactly `ol` — is still classified as a list
container by `listp`. -/
theorem c8_counterexample :
    listp_match "ulx" = true ∧ list_spec "ulx" = false := by
  constructor <;> rfl

/-- C8 (amended): `listp.match` classifies a tag name as a list container iff
the name starts with `ol` or `ul`; any continuation is accepted (a prefix
match, not equality with `ul`/`ol`). -/
theorem c8_list_recognition (name : String) :
    listp_match name = true ↔
      ∃ rest, name.data = 'o' :: 'l' :: rest ∨ name.data = 'u' :: 'l' :: rest := by
  cases hd : name.data with
  | nil => rw [listp_match, hd]; simp [hd]
  | cons c tl =>
    cases tl with
    | nil => rw [listp_match, hd]; simp [hd]
    | cons d rest =>
      rw [listp_match, hd]; simp [hd]
      constructor
      · rintro ⟨rfl | rfl, rfl⟩
        · exact ⟨rest, Or.inl ⟨rfl, rfl, rfl⟩⟩
        · exact ⟨rest, Or.inr ⟨rfl, rfl, rfl⟩⟩
      · rintro ⟨rest', ⟨rfl, rfl, rfl⟩ | ⟨rfl, rfl, rfl⟩⟩
        · exact ⟨Or.inl rfl, rfl⟩
        · exact ⟨Or.inr rfl, rfl⟩

/-- C3, counterexample: on a section whose only direct child is a text node —
so no direct child is a header — `get_title` does not raise
`ValueError('No header in section')`: `headerp.match(child.name)` receives
the text node's `None` name and raises `TypeError` instead. -/
theorem c3_counterexample :
    get_title (Node.tag "section" [Node.text "x"]) = Except.error TitleError.typeError ∧
    get_title (Node.tag "section" [Node.text "x"]) ≠ Except.error TitleError.valueError := by
  refine ⟨rfl, fun h => ?_⟩
  simp [get_title, get_title_loop, headerp_match_name, Node.name] at h

/-- C3 (amended): on a section all of whose direct children are element nodes,
`get_title` returns the text of the first header-tagged child in forward
order, and raises `ValueError` when no child is a header; a text child
scanned before any header instead makes it raise `TypeError`. -/
theorem c3_title_from_first_header (cs : List Node)
    (htag : ∀ c ∈ cs, c.isTag = true) :
    ((∀ c ∈ cs, is_header_child c = false) →
      get_title (Node.tag "section" cs) = Except.error TitleError.valueError) ∧
    (∀ pre hd rest, cs = pre ++ hd :: rest →
      (∀ p ∈ pre, is_header_child p = false) → is_header_child hd = true →
      get_title (Node.tag "section" cs) = Except.ok (get_text hd)) := by
  constructor
  · intro hnh
    exact get_title_loop_no_header cs htag hnh
  · rintro pre hd rest rfl hnh hh
    exact get_title_loop_first_header pre hd rest
      (fun c h => htag c (List.mem_append.mpr (Or.inl h))) hnh hh

/-- Witness for C3 at a concrete input: a section with a non-header `<p>`
child followed by an `<h1>` child titled `T`. -/
theorem c3_witness :
    get_title (Node.tag "section" [Node.tag "p" [], Node.tag "h1" [Node.text "T"]])
      = Except.ok (get_text (Node.tag "h1" [Node.text "T"])) :=
  (c3_title_from_first_header _ (by decide)).2
    [Node.tag "p" []] (Node.tag "h1" [Node.text "T"]) [] rfl (by decide) (by decide)

/-- When every record of `docs` parses successfully (with results `out`), the
record loop writes exactly the serializations of `out`, in order, and finishes
with `doc_no` bound to the total record count. -/
theorem conv_loop_ok (parse : String → Except String String) :
    ∀ (docs out : List String) (n : Nat),
      docs.map parse = out.map Except.ok →
      conv_loop parse docs n = (out.map json_dumps, Sum.inl (n + docs.length)) := by
  intro docs
  induction docs with
  | nil =>
    intro out n h
    have : out = [] := by
      cases out with
      | nil => rfl
      | cons o os => simp at h
    subst this
    simp [conv_loop]
  | cons d ds ih =>
    intro out n h
    cases out with
    | nil => simp at h
    | cons o os =>
      simp only [List.map_cons, List.cons.injEq] at h
      obtain ⟨hd, hds⟩ := h
      simp only [conv_loop, hd, ih os (n + 1) hds, List.map_cons, List.length_cons,
        Prod.mk.injEq, Sum.inl.injEq]
      exact ⟨trivial, by omega⟩

/-- When the records before `bad` parse successfully and `bad` (the record
numbered `n + pre.length + 1`) fails with `e`, the record loop has written the
serializations of the earlier records and aborts with `e` at that number. -/
theorem conv_loop_err (parse : String → Except String String) :
    ∀ (pre out : List String) (bad : String) (rest : List String) (e : String) (n : Nat),
      pre.map parse = out.map Except.ok → parse bad = Except.error e →
      conv_loop parse (pre ++ bad :: rest) n
        = (out.map json_dumps, Sum.inr (e, n + pre.length + 1)) := by
  intro pre
  induction pre with
  | nil =>
    intro out bad rest e n h hbad
    have : out = [] := by
      cases out with
      | nil => rfl
      | cons o os => simp at h
    subst this
    simp [conv_loop, hbad]
  | cons d ds ih =>
    intro out bad rest e n h hbad
    cases out with
    | nil => simp at h
    | cons o os =>
      simp only [List.map_cons, List.cons.injEq] at h
      obtain ⟨hd, hds⟩ := h
      have hih := ih os bad rest e (n + 1) hds hbad
      simp only [List.append_eq] at hih
      simp only [List.cons_append, conv_loop, hd, List.append_eq, hih, List.map_cons,
        List.length_cons, Prod.mk.injEq, Sum.inr.injEq]
      exact ⟨trivial, trivial, by omega⟩

/-- In every branch of `convert_to_json` the destination file has been created
(by `gzip.open`, before the first record is read) and the lines written are
exactly those produced by the record loop. -/
theorem convert_fileCreated_lines (parse : String → Except String String)
    (file : String) (docs : List String) (terminal : Terminal) :
    (convert_to_json parse file docs terminal).fileCreated = true ∧
    (convert_to_json parse file docs terminal).lines = (conv_loop parse docs 0).1 := by
  unfold convert_to_json
  rcases hc : conv_loop parse docs 0 with ⟨lines, r⟩
  rcases r with n0 | ⟨e, k⟩
  · rcases terminal with _ | msg | e2 <;> by_cases h0 : n0 = 0 <;> simp [h0]
  · simp

/-- C2, counterexample: a reader that raises the truncated-archive condition
before yielding any record (K = 0) makes `convert_to_json` raise
`UnboundLocalError` on `return doc_no` instead of returning the count 0. -/
theorem c2_counterexample :
    (convert_to_json idParse "f" [] (Terminal.eofError "eof")).result
        = ConvResult.raise (PyError.unboundLocal "doc_no") ∧
    ConvResult.raise (PyError.unboundLocal "doc_no") ≠ ConvResult.ret 0 := by
  exact ⟨rfl, by decide⟩

/-- C2 (amended): for every archive whose reader raises the truncated-archive
condition after yielding K ≥ 1 records that were each successfully converted
and written, `convert_to_json` returns K, and the output file contains exactly
those K serialized records in the original archive order (for K = 0 it raises
instead). -/
theorem c2_truncation_returns_partial_count
    (parse : String → Except String String) (file msg : String)
    (docs out : List String)
    (hok : docs.map parse = out.map Except.ok) (hne : docs ≠ []) :
    (convert_to_json parse file docs (Terminal.eofError msg)).result
        = ConvResult.ret docs.length ∧
    (convert_to_json parse file docs (Terminal.eofError msg)).lines
        = out.map json_dumps := by
  have hlen : ¬docs.length = 0 := by
    intro h0
    exact hne (List.length_eq_zero.mp h0)
  unfold convert_to_json
  rw [conv_loop_ok parse docs out 0 hok]
  simp [hlen]

/-- Witness for C2 at a concrete input: truncation after one good record. -/
theorem c2_witness :
    (convert_to_json idParse "f" ["a"] (Terminal.eofError "eof")).result
        = ConvResult.ret 1 ∧
    (convert_to_json idParse "f" ["a"] (Terminal.eofError "eof")).lines
        = [json_dumps "a"] :=
  c2_truncation_returns_partial_count idParse "f" "eof" ["a"] ["a"] rfl (by simp)

/-- C9: a stream that produces no record — whether by plain exhaustion, by an
immediate truncated-archive condition, or by an immediate other reader error —
makes `convert_to_json` raise `UnboundLocalError` on the never-bound `doc_no`;
and no invocation can ever return the count 0, since `enumerate(..., 1)`
numbers records from 1. -/
theorem c9_zero_records_raises
    (parse : String → Except String String) (file : String) (terminal : Terminal) :
    (convert_to_json parse file [] terminal).result
        = ConvResult.raise (PyError.unboundLocal "doc_no") ∧
    ∀ (docs : List String) (n : Nat),
      (convert_to_json parse file docs terminal).result = ConvResult.ret n → 1 ≤ n := by
  constructor
  · cases terminal <;> rfl
  · intro docs n h
    unfold convert_to_json at h
    rcases hc : conv_loop parse docs 0 with ⟨lines, r⟩
    rw [hc] at h
    rcases r with n0 | ⟨e, k⟩
    · cases terminal with
      | exhausted =>
        by_cases h0 : n0 = 0
        · simp [h0] at h
        · simp [h0] at h
          omega
      | eofError msg =>
        by_cases h0 : n0 = 0
        · simp [h0] at h
        · simp [h0] at h
          omega
      | otherError e2 =>
        by_cases h0 : n0 = 0 <;> simp [h0] at h
    · simp at h

/-- Witness for C9 at a concrete input. -/
theorem c9_witness : 1 ≤ 1 :=
  (c9_zero_records_raises idParse "f" Terminal.exhausted).2 ["a"] 1 rfl

/-- C4, counterexample: a non-`EOFError` reader failure before the first record
is not logged with file and record context and is not re-raised: the bare
`except:` handler's f-string reads the unbound `doc_no` first, so the call
raises `UnboundLocalError` instead and the log stays empty. -/
theorem c4_counterexample :
    (convert_to_json idParse "f" [] (Terminal.otherError "boom")).result
        = ConvResult.raise (PyError.unboundLocal "doc_no") ∧
    (convert_to_json idParse "f" [] (Terminal.otherError "boom")).logs = [] ∧
    PyError.unboundLocal "doc_no" ≠ PyError.procError "boom" := by
  exact ⟨rfl, rfl, by decide⟩

/-- C4 (amended): once at least one record number has been bound, every
non-truncation error is logged with the input file name and the current
record number and then re-raised, so the invocation raises rather than
returning a count. In particular, a processing failure at record K (= number
of good records + 1) logs `(file, K)` and re-raises; a non-`EOFError` reader
failure after K ≥ 1 good records logs `(file, K)` and re-raises. A
non-`EOFError` failure before any record is bound instead raises
`UnboundLocalError` without logging. -/
theorem c4_fatal_errors_logged_and_reraised
    (parse : String → Except String String) (file : String)
    (pre out : List String) (bad : String) (rest : List String) (e : String)
    (terminal : Terminal)
    (hok : pre.map parse = out.map Except.ok) (hbad : parse bad = Except.error e) :
    ((convert_to_json parse file (pre ++ bad :: rest) terminal).result
        = ConvResult.raise (PyError.procError e) ∧
      (convert_to_json parse file (pre ++ bad :: rest) terminal).logs
        = [LogEntry.logException file (pre.length + 1)] ∧
      (convert_to_json parse file (pre ++ bad :: rest) terminal).lines
        = out.map json_dumps) ∧
    (∀ (docs2 out2 : List String) (e2 : String),
      docs2.map parse = out2.map Except.ok → docs2 ≠ [] →
      (convert_to_json parse file docs2 (Terminal.otherError e2)).result
          = ConvResult.raise (PyError.procError e2) ∧
      (convert_to_json parse file docs2 (Terminal.otherError e2)).logs
          = [LogEntry.logException file docs2.length]) := by
  constructor
  · unfold convert_to_json
    rw [conv_loop_err parse pre out bad rest e 0 hok hbad]
    simp
  · intro docs2 out2 e2 hok2 hne2
    have hlen : ¬docs2.length = 0 := by
      intro h0
      exact hne2 (List.length_eq_zero.mp h0)
    unfold convert_to_json
    rw [conv_loop_ok parse docs2 out2 0 hok2]
    simp [hlen]

/-- Witness for C4 at a concrete input: record 2 fails to parse. -/
theorem c4_witness :
    (convert_to_json (fun s => if s = "bad" then Except.error "parse fault"
        else Except.ok s) "f" ["a", "bad"] Terminal.exhausted).result
      = ConvResult.raise (PyError.procError "parse fault") ∧
    (convert_to_json (fun s => if s = "bad" then Except.error "parse fault"
        else Except.ok s) "f" ["a", "bad"] Terminal.exhausted).logs
      = [LogEntry.logException "f" 2] ∧
    (convert_to_json (fun s => if s = "bad" then Except.error "parse fault"
        else Except.ok s) "f" ["a", "bad"] Terminal.exhausted).lines
      = [json_dumps "a"] :=
  (c4_fatal_errors_logged_and_reraised
      (fun s => if s = "bad" then Except.error "parse fault" else Except.ok s)
      "f" ["a"] ["a"] "bad" [] "parse fault" Terminal.exhausted
      (by simp) (by simp)).1

/-- C7, counterexample: with a stream that yields no record at all, the
destination file is nevertheless created (by `gzip.open`, on entry), before
the worker ever begins emitting — and indeed nothing is ever emitted. -/
theorem c7_counterexample :
    (convert_to_json idParse "f" [] Terminal.exhausted).fileCreated = true ∧
    (convert_to_json idParse "f" [] Terminal.exhausted).lines = [] := by
  exact ⟨rfl, rfl⟩

/-- C7 (amended): the destination file is created when the worker opens the
output stream — before the first record is read, not only once emitting
begins — and the records are then written one per line in exactly the order
consumed from the reader, with no reordering. -/
theorem c7_output_order
    (parse : String → Except String String) (file : String)
    (docs out : List String) (terminal : Terminal)
    (hok : docs.map parse = out.map Except.ok) :
    (convert_to_json parse file docs terminal).fileCreated = true ∧
    (convert_to_json parse file docs terminal).lines = out.map json_dumps := by
  refine ⟨(convert_fileCreated_lines parse file docs terminal).1, ?_⟩
  rw [(convert_fileCreated_lines parse file docs terminal).2,
    conv_loop_ok parse docs out 0 hok]

/-- Witness for C7 at a concrete input. -/
theorem c7_witness :
    (convert_to_json idParse "f" ["a", "b"] Terminal.exhausted).fileCreated = true ∧
    (convert_to_json idParse "f" ["a", "b"] Terminal.exhausted).lines
      = [json_dumps "a", json_dumps "b"] :=
  c7_output_order idParse "f" ["a", "b"] ["a", "b"] Terminal.exhausted rfl

/-- When every scheduled worker invocation returns a count, `pool.starmap`
collects exactly those counts, in task order. -/
theorem pool_starmap_ok (worker : String → String → ConvRun) :
    ∀ (listing : List String) (i o : String) (counts : List Nat),
      (listing.map fun f => (worker (op_join i f) (op_join o f)).result)
          = counts.map ConvResult.ret →
      pool_starmap worker (in_out_files i o listing) = Except.ok counts := by
  intro listing
  induction listing with
  | nil =>
    intro i o counts h
    have : counts = [] := by
      cases counts with
      | nil => rfl
      | cons c cs => simp at h
    subst this
    rfl
  | cons f fs ih =>
    intro i o counts h
    cases counts with
    | nil => simp at h
    | cons c cs =>
      simp only [List.map_cons, List.cons.injEq] at h
      obtain ⟨hf, hfs⟩ := h
      simp only [in_out_files, List.map_cons, pool_starmap, hf]
      have := ih i o cs hfs
      simp only [in_out_files] at this
      rw [this]

/-- C6: the batch driver schedules exactly one worker invocation per file of
the one-level listing; each invocation's output path is the same base name
placed under the output directory; and when every invocation returns a count,
the reported total is the sum of those per-file counts (partial counts
returned after a recoverable truncation included, since they are ordinary
returns). -/
theorem c6_one_worker_per_file_total_is_sum
    (worker : String → String → ConvRun) (input_dir output_dir : String)
    (listing : List String) (counts : List Nat) :
    (in_out_files input_dir output_dir listing).length = listing.length ∧
    (∀ f ∈ listing, (op_join input_dir f, op_join output_dir f)
        ∈ in_out_files input_dir output_dir listing) ∧
    ((listing.map fun f =>
        (worker (op_join input_dir f) (op_join output_dir f)).result)
          = counts.map ConvResult.ret →
      main_total worker input_dir output_dir listing = Except.ok counts.sum) := by
  refine ⟨by simp [in_out_files], ?_, ?_⟩
  · intro f hf
    simp only [in_out_files, List.mem_map]
    exact ⟨f, hf, rfl⟩
  · intro h
    unfold main_total
    rw [pool_starmap_ok worker listing input_dir output_dir counts h]

/-- Witness for C6 at a concrete input: two files, each worker returning a
partial count of 1 after a recoverable truncation; the total is 2. -/
theorem c6_witness :
    main_total (fun i _ => convert_to_json idParse i ["a"] (Terminal.eofError "t"))
      "in" "out" ["x", "y"] = Except.ok 2 :=
  (c6_one_worker_per_file_total_is_sum
      (fun i _ => convert_to_json idParse i ["a"] (Terminal.eofError "t"))
      "in" "out" ["x", "y"] [1, 1]).2.2 rfl
